import Mathlib

/-!
Verification of the update-qtile pipeline (src/main.rs).

The development shallowly embeds the pure decision logic of the program:

* the four regex line matchers and the PKGBUILD line-mutation loop of
  `UpdateQtile::modify_pkgbuild` (a single forward pass over the original
  line enumeration that mutates a live, growing buffer, with the Rust
  `Vec` indexing/insertion panics modelled as `Option.none`);
* the source-locator `UpdateQtile::get_source`;
* the cached-repository removal logic `UpdateQtile::remove_repo`
  (interactive privilege-escalation prompt included);
* the artifact-removal helper `UpdateQtile::remove_file_or_dir_if_exists`;
* the build/install/restart orchestration of `UpdateQtile::install`,
  abstracted over the outcomes of the external processes it spawns
  (`makepkg`, `pacman -Qq`, `pacman -U`, the qtile IPC restart call) and
  over the filesystem state it queries.
-/

/-! ## String pattern matchers

`modify_pkgbuild` uses four regexes, always through `Regex::is_match`:
`license=\(.*\)`, `source=\(.*\)`, `.*cd qtile`, `.*git describe`.
For `is_match` the leading `.*` of the last two is irrelevant, so they
reduce to substring search.  For the first two, `is_match` holds iff the
line contains the literal key (`license=(` resp. `source=(`) followed,
before any newline, by a closing parenthesis (`.` does not match `\n`). -/

/-- Substring test on character lists: `needle` occurs contiguously in the
list. Models `Regex::is_match` for the patterns `.*cd qtile` and
`.*git describe`. -/
def charsContain (needle : List Char) : List Char → Bool
  | [] => needle.isEmpty
  | c :: t => needle.isPrefixOf (c :: t) || charsContain needle t

/-- After the key of a `key=\(.*\)` pattern, scan for a closing
parenthesis; `.` in the regex does not match a newline, so a newline
before any `)` kills the match at this start position. -/
def scanClose : List Char → Bool
  | [] => false
  | c :: t => if c = ')' then true else if c = '\n' then false else scanClose t

/-- `is_match` for a regex of the shape `key\(.*\)` (with `key` ending in
the opening parenthesis): some position starts with `key` and a `)`
follows before any newline. -/
def parenPatMatch (key : List Char) : List Char → Bool
  | [] => false
  | c :: t =>
      (key.isPrefixOf (c :: t) && scanClose ((c :: t).drop key.length))
        || parenPatMatch key t

/-- Rust: `Regex::new(r"license=\(.*\)").is_match(line)`. -/
def licenseMatch (s : String) : Bool := parenPatMatch ("license=(".data) s.data

/-- Rust: `Regex::new(r"source=\(.*\)").is_match(line)`. -/
def sourceMatch (s : String) : Bool := parenPatMatch ("source=(".data) s.data

/-- Rust: `Regex::new(r".*cd qtile").is_match(line)`. -/
def cdMatch (s : String) : Bool := charsContain ("cd qtile".data) s.data

/-- Rust: `Regex::new(r".*git describe").is_match(line)`. -/
def describeMatch (s : String) : Bool := charsContain ("git describe".data) s.data

/-- A line on which none of the three scanned patterns fire; the loop body
of `modify_pkgbuild` leaves the buffer untouched for such a line. -/
def nonmatchingLine (l : String) : Bool :=
  !licenseMatch l && !sourceMatch l && !cdMatch l

/-! ## The PKGBUILD mutation loop (`modify_pkgbuild`)

Rust `Vec` operations with their panic conditions made explicit:
`vec[i] = x` and `&vec[i]` panic when `i` is out of bounds,
`vec.insert(i, x)` panics when `i > vec.len()`.  A panic is modelled as
`Option.none`. -/

/-- Total insertion helper; `vecInsert` guards it with the Rust bound
check, so the out-of-range behaviour of the last equation is never
exercised under the guard. -/
def insertAt (a : α) : Nat → List α → List α
  | 0, l => a :: l
  | _ + 1, [] => [a]
  | n + 1, x :: t => x :: insertAt a n t

/-- Rust `Vec::insert(i, a)`: panics (`none`) when `i > len`. -/
def vecInsert (i : Nat) (a : α) (l : List α) : Option (List α) :=
  if i ≤ l.length then some (insertAt a i l) else none

/-- Rust `vec[i] = a`: panics (`none`) when `i ≥ len`. -/
def vecSet (i : Nat) (a : α) (l : List α) : Option (List α) :=
  if i < l.length then some (l.set i a) else none

/-- Rust `&vec[i]`: panics (`none`) when `i ≥ len`. -/
def vecGet (i : Nat) (l : List α) : Option α := l.get? i

/-- The marker line inserted after a license-declaration match. -/
def markerLine : String := "groups=('modified')\n"

/-- The remote-add line of the cd/describe coupling. -/
def remoteLine : String :=
  "  git remote add upstream https://github.com/qtile/qtile.git\n"

/-- The tag-fetch line of the cd/describe coupling. -/
def fetchLine : String := "  git fetch upstream --tags --force\n"

/-- The replacement source declaration, `source=('git+<source>')`. -/
def newSourceLine (source : String) : String :=
  "source=('git+" ++ source ++ "')\n"

/-- First mutation of a loop iteration: on a license-declaration match,
insert the marker line right after the matched index. -/
def licenseStage (index : Nat) (line : String) (buf : List String) :
    Option (List String) :=
  if licenseMatch line then vecInsert (index + 1) markerLine buf else some buf

/-- Second mutation: on a source-declaration match, assign the new source
declaration to position `index + 1` of the current buffer. -/
def sourceStage (source : String) (index : Nat) (line : String)
    (buf : List String) : Option (List String) :=
  if sourceMatch line then vecSet (index + 1) (newSourceLine source) buf
  else some buf

/-- Third mutation: on a directory-change match, read the *current* buffer
at `index + 2` (a panicking index) and, when it matches the describe
pattern, insert the remote-add and tag-fetch lines at `index + 2` and
`index + 3`. -/
def cdStage (index : Nat) (line : String) (buf : List String) :
    Option (List String) :=
  if cdMatch line then
    match vecGet (index + 2) buf with
    | none => none
    | some l2 =>
      if describeMatch l2 then
        match vecInsert (index + 2) remoteLine buf with
        | none => none
        | some buf2 => vecInsert (index + 3) fetchLine buf2
      else some buf
  else some buf

/-- One iteration of the `for (index, line) in lines.clone()` loop of
`modify_pkgbuild`: `index` and `line` come from the original enumeration,
`buf` is the live mutated buffer.  Mirrors the source order: license
insertion, then source replacement at `index + 1`, then the coupled
cd/describe check reading the *current* buffer at `index + 2`. -/
def patchStep (source : String) (index : Nat) (line : String)
    (buf : List String) : Option (List String) := do
  let buf ← licenseStage index line buf
  let buf ← sourceStage source index line buf
  cdStage index line buf

/-- The whole loop: walk the cloned original lines (second argument,
carrying the running original index) while threading the mutated buffer. -/
def patchLoop (source : String) : Nat → List String → List String →
    Option (List String)
  | _, [], buf => some buf
  | index, line :: rest, buf => do
    let buf ← patchStep source index line buf
    patchLoop source (index + 1) rest buf

/-- The line transformation performed by `UpdateQtile::modify_pkgbuild`
between reading and rewriting the PKGBUILD: the loop runs over the clone
of the original lines with the original list as initial buffer.  `none`
means the Rust code panics on an out-of-bounds `Vec` access. -/
def modify_pkgbuild (source : String) (orig : List String) :
    Option (List String) :=
  patchLoop source 0 orig orig

/-! ## The source locator (`get_source`) -/

/-- The CLI argument record of `main.rs` (field `fork` has clap default
`"qtile"`; conflicts are enforced by clap upstream of `get_source`). -/
structure Args where
  fork : Option String
  path : Option String
  commit : Option String
  branch : Option String
  tag : Option String
  restart : Bool

/-- `UpdateQtile::get_source`, translated clause by clause. -/
def get_source (a : Args) : String :=
  let source :=
    match a.path with
    | some path => "file://" ++ path
    | none =>
      match a.fork with
      | some fork => "https://github.com/" ++ fork ++ "/qtile"
      | none => "https://github.com/qtile/qtile"
  match a.commit with
  | some commit => source ++ "#commit=" ++ commit
  | none =>
    match a.tag with
    | some tag => source ++ "#tag=" ++ tag
    | none =>
      match a.branch with
      | some branch => source ++ "#branch=" ++ branch
      | none => source

/-- Origin string as the spec words it: localPath gives `file://<path>`,
else forkName gives `https://github.com/<fork>/qtile`, else the canonical
upstream URL. -/
def specOrigin (a : Args) : String :=
  match a.path with
  | some path => "file://" ++ path
  | none =>
    match a.fork with
    | some fork => "https://github.com/" ++ fork ++ "/qtile"
    | none => "https://github.com/qtile/qtile"

/-- Ref-qualifier suffix as the spec words it, precedence
commit > tag > branch > none. -/
def specRefSuffix (a : Args) : String :=
  match a.commit with
  | some commit => "#commit=" ++ commit
  | none =>
    match a.tag with
    | some tag => "#tag=" ++ tag
    | none =>
      match a.branch with
      | some branch => "#branch=" ++ branch
      | none => ""

/-- At most one of the ref selectors commit/branch/tag is set. -/
def atMostOneRef (a : Args) : Bool :=
  ((if a.commit.isSome then 1 else 0) + (if a.branch.isSome then 1 else 0)
      + (if a.tag.isSome then 1 else 0)) ≤ 1

/-- The selector set of the end-to-end scenario
`{forkName: "alice", commitId: "abc123"}`. -/
def aliceArgs : Args :=
  { fork := some "alice", path := none, commit := some "abc123",
    branch := none, tag := none, restart := false }

/-- C2: for every selector set with at most one origin field set and at
most one ref field set, `get_source` returns the origin string (localPath
as `file://<path>`, else forkName as `https://github.com/<fork>/qtile`,
else the canonical URL) suffixed with `#commit=` / `#tag=` / `#branch=`
by the precedence commit > tag > branch > none. -/
theorem get_source_matches_spec (a : Args)
    (ho : a.path = none ∨ a.fork = none)
    (hr : atMostOneRef a = true) :
    get_source a = specOrigin a ++ specRefSuffix a := by
  obtain ⟨f, p, c, b, t, r⟩ := a
  cases p <;> cases f <;> cases c <;> cases b <;> cases t <;>
    simp only [get_source, specOrigin, specRefSuffix] <;>
    first
      | rfl
      | apply String.append_assoc
      | exact (String.append_empty _).symm

/-- C2 witness: the end-to-end scenario
`{forkName: "alice", commitId: "abc123"}` yields
`https://github.com/alice/qtile#commit=abc123`. -/
theorem get_source_matches_spec_witness :
    (aliceArgs.path = none ∨ aliceArgs.fork = none) ∧
      atMostOneRef aliceArgs = true ∧
      get_source aliceArgs = "https://github.com/alice/qtile#commit=abc123" := by
  refine ⟨Or.inl rfl, by decide, ?_⟩
  have h := get_source_matches_spec aliceArgs (Or.inl rfl) (by decide)
  exact h.trans (by decide)

/-! ## Helper lemmas about the mutation loop -/

/-- A loop iteration on a line where no pattern fires leaves the buffer
untouched. -/
theorem patchStep_nonmatching (source : String) (index : Nat) (line : String)
    (buf : List String) (h : nonmatchingLine line = true) :
    patchStep source index line buf = some buf := by
  simp only [nonmatchingLine, Bool.and_eq_true, Bool.not_eq_true'] at h
  simp [patchStep, licenseStage, sourceStage, cdStage, h.1.1, h.1.2, h.2]

/-- Scanning a run of non-matching lines is a no-op on the buffer. -/
theorem patchLoop_noop (source : String) (rest : List String) :
    ∀ (n : Nat) (buf : List String),
      (∀ l ∈ rest, nonmatchingLine l = true) →
      patchLoop source n rest buf = some buf := by
  induction rest with
  | nil => intro n buf _; rfl
  | cons l t ih =>
    intro n buf h
    rw [patchLoop, patchStep_nonmatching source n l buf (h l (by simp))]
    exact ih (n + 1) buf (fun x hx => h x (by simp [hx]))

/-- Scanning a non-matching prefix just advances the running index. -/
theorem patchLoop_append (source : String) (pre : List String) :
    ∀ (tail : List String) (n : Nat) (buf : List String),
      (∀ l ∈ pre, nonmatchingLine l = true) →
      patchLoop source n (pre ++ tail) buf =
        patchLoop source (n + pre.length) tail buf := by
  induction pre with
  | nil => intro tail n buf _; simp
  | cons l t ih =>
    intro tail n buf h
    rw [List.cons_append, patchLoop,
      patchStep_nonmatching source n l buf (h l (by simp))]
    have heq : n + (l :: t).length = n + 1 + t.length := by
      simp [List.length_cons]; omega
    rw [heq]
    exact ih tail (n + 1) buf (fun x hx => h x (by simp [hx]))

/-- `get?` past an appended prefix. -/
theorem listGet_append (t : List α) (pre : List α) (k : Nat) :
    (pre ++ t).get? (pre.length + k) = t.get? k := by
  induction pre with
  | nil => simp
  | cons x l ih =>
    have heq : (x :: l).length + k = (l.length + k) + 1 := by
      simp [List.length_cons]; omega
    rw [heq, List.cons_append, List.get?_cons_succ]
    exact ih

/-- `set` past an appended prefix. -/
theorem listSet_append (t : List α) (a : α) (pre : List α) (k : Nat) :
    (pre ++ t).set (pre.length + k) a = pre ++ t.set k a := by
  induction pre with
  | nil => simp
  | cons x l ih =>
    have heq : (x :: l).length + k = (l.length + k) + 1 := by
      simp [List.length_cons]; omega
    rw [heq, List.cons_append]
    show x :: (l ++ t).set (l.length + k) a = x :: (l ++ t.set k a)
    rw [ih]

/-- `insertAt` past an appended prefix. -/
theorem insertAt_append (t : List α) (a : α) (pre : List α) (k : Nat) :
    insertAt a (pre.length + k) (pre ++ t) = pre ++ insertAt a k t := by
  induction pre with
  | nil => simp
  | cons x l ih =>
    have heq : (x :: l).length + k = (l.length + k) + 1 := by
      simp [List.length_cons]; omega
    rw [heq, List.cons_append]
    show x :: insertAt a (l.length + k) (l ++ t) = x :: (l ++ insertAt a k t)
    rw [ih]

/-- In-bounds insertion grows the length by one. -/
theorem length_insertAt (a : α) : ∀ (n : Nat) (l : List α), n ≤ l.length →
    (insertAt a n l).length = l.length + 1
  | 0, _, _ => rfl
  | n + 1, [], h => by simp at h
  | n + 1, x :: t, h => by
    show (insertAt a n t).length + 1 = t.length + 1 + 1
    rw [length_insertAt a n t (by simpa using h)]

/-! ## Claims about the PKGBUILD patcher -/

/-- C3 (amended): the assignment targets position match-index+1 of the
*mutated* buffer, so it replaces the placeholder line exactly when no
insertion occurred at an earlier index.  For a document whose only
pattern match is a unique source-declaration line that is not the last
line (no license-declaration or directory-change match anywhere),
patching replaces the line immediately following the source declaration
with `source=('git+<ref>')`, leaves every other line verbatim, and
preserves the line count. -/
theorem modify_pkgbuild_source_replacement (src : String)
    (pre rest : List String) (srcline ph : String)
    (hpre : ∀ l ∈ pre, nonmatchingLine l = true)
    (hrest : ∀ l ∈ rest, nonmatchingLine l = true)
    (hph : nonmatchingLine ph = true)
    (hsrc : sourceMatch srcline = true)
    (hlic : licenseMatch srcline = false)
    (hcd : cdMatch srcline = false) :
    modify_pkgbuild src (pre ++ srcline :: ph :: rest) =
      some (pre ++ srcline :: newSourceLine src :: rest) := by
  unfold modify_pkgbuild
  rw [patchLoop_append src pre (srcline :: ph :: rest) 0 _ hpre, Nat.zero_add,
    patchLoop]
  have hlen : pre.length + 1 < (pre ++ srcline :: ph :: rest).length := by
    simp only [List.length_append, List.length_cons]; omega
  have hset : (pre ++ srcline :: ph :: rest).set (pre.length + 1)
      (newSourceLine src) = pre ++ srcline :: newSourceLine src :: rest := by
    rw [listSet_append]
    rfl
  have hstep : patchStep src pre.length srcline (pre ++ srcline :: ph :: rest) =
      some (pre ++ srcline :: newSourceLine src :: rest) := by
    simp [patchStep, licenseStage, sourceStage, cdStage, hlic, hsrc, hcd,
      vecSet, hlen, hset]
  rw [hstep]
  exact patchLoop_noop src (ph :: rest) (pre.length + 1) _ (by
    intro x hx
    rcases List.mem_cons.mp hx with h | h
    · exact h ▸ hph
    · exact hrest x h)

/-- C3 counterexample: with a license-declaration line *before* the source
line (the layout the spec itself requires of a recipe), the marker
insertion has already shifted the buffer by one, so the assignment at
match-index+1 overwrites the source-declaration line itself and the
placeholder line survives verbatim — not what the claim states. -/
theorem modify_pkgbuild_source_shift_cex :
    modify_pkgbuild "S" ["license=(MIT)\n", "source=(old)\n", "placeholder\n"] =
      some ["license=(MIT)\n", markerLine, newSourceLine "S", "placeholder\n"] ∧
    (["license=(MIT)\n", markerLine, newSourceLine "S", "placeholder\n"] ≠
      ["license=(MIT)\n", markerLine, "source=(old)\n", newSourceLine "S"]) := by
  exact ⟨by decide, by decide⟩

/-- C3 witness: a concrete document with a unique source-declaration
match. -/
theorem modify_pkgbuild_source_replacement_witness :
    (∀ l ∈ ["pkgname=qtile-git\n"], nonmatchingLine l = true) ∧
    (∀ l ∈ ["sha256sums=('SKIP')\n"], nonmatchingLine l = true) ∧
    nonmatchingLine "  placeholder\n" = true ∧
    sourceMatch "source=(x)\n" = true ∧
    licenseMatch "source=(x)\n" = false ∧
    cdMatch "source=(x)\n" = false ∧
    modify_pkgbuild "S"
        (["pkgname=qtile-git\n"] ++ "source=(x)\n" :: "  placeholder\n" ::
          ["sha256sums=('SKIP')\n"]) =
      some (["pkgname=qtile-git\n"] ++ "source=(x)\n" :: newSourceLine "S" ::
        ["sha256sums=('SKIP')\n"]) :=
  ⟨by decide, by decide, by decide, by decide, by decide, by decide,
    modify_pkgbuild_source_replacement "S" ["pkgname=qtile-git\n"]
      ["sha256sums=('SKIP')\n"] "source=(x)\n" "  placeholder\n"
      (by decide) (by decide) (by decide) (by decide) (by decide) (by decide)⟩

/-- C4 (amended): the two lines are inserted at positions match-index+2
and match-index+3 of the current buffer (match-index being the index of
the directory-change line in the *original* enumeration), which is
immediately after the directory-change line only when exactly one
insertion occurred at an earlier position.  For a document whose only
matches are the directory-change line followed by one intermediate line
and then a version-describe line, the remote-add and tag-fetch lines land
between the intermediate line and the describe line. -/
theorem modify_pkgbuild_cd_insertion (src : String)
    (pre rest : List String) (cdline mid desc : String)
    (hpre : ∀ l ∈ pre, nonmatchingLine l = true)
    (hrest : ∀ l ∈ rest, nonmatchingLine l = true)
    (hmid : nonmatchingLine mid = true)
    (hdesc : nonmatchingLine desc = true)
    (hdd : describeMatch desc = true)
    (hcd : cdMatch cdline = true)
    (hlic : licenseMatch cdline = false)
    (hsrc : sourceMatch cdline = false) :
    modify_pkgbuild src (pre ++ cdline :: mid :: desc :: rest) =
      some (pre ++ cdline :: mid :: remoteLine :: fetchLine :: desc :: rest) := by
  unfold modify_pkgbuild
  rw [patchLoop_append src pre (cdline :: mid :: desc :: rest) 0 _ hpre,
    Nat.zero_add, patchLoop]
  have hget : vecGet (pre.length + 2) (pre ++ cdline :: mid :: desc :: rest) =
      some desc := by
    unfold vecGet
    rw [listGet_append]
    rfl
  have hins1 : vecInsert (pre.length + 2) remoteLine
      (pre ++ cdline :: mid :: desc :: rest) =
      some (pre ++ cdline :: mid :: remoteLine :: desc :: rest) := by
    unfold vecInsert
    rw [if_pos (by simp only [List.length_append, List.length_cons]; omega),
      insertAt_append]
    rfl
  have hins2 : vecInsert (pre.length + 3) fetchLine
      (pre ++ cdline :: mid :: remoteLine :: desc :: rest) =
      some (pre ++ cdline :: mid :: remoteLine :: fetchLine :: desc :: rest) := by
    unfold vecInsert
    rw [if_pos (by simp only [List.length_append, List.length_cons]; omega)]
    rw [insertAt_append]
    rfl
  have hstep : patchStep src pre.length cdline
      (pre ++ cdline :: mid :: desc :: rest) =
      some (pre ++ cdline :: mid :: remoteLine :: fetchLine :: desc :: rest) := by
    simp [patchStep, licenseStage, sourceStage, cdStage, hlic, hsrc, hcd,
      hget, hdd, hins1, hins2]
  rw [hstep]
  exact patchLoop_noop src (mid :: desc :: rest) (pre.length + 1) _ (by
    intro x hx
    rcases List.mem_cons.mp hx with h | hx2
    · exact h ▸ hmid
    rcases List.mem_cons.mp hx2 with h | h
    · exact h ▸ hdesc
    · exact hrest x h)

/-- C4 counterexample: with no earlier insertion the two lines are *not*
inserted immediately after the directory-change line — position 1 of the
output still holds the intermediate line, the new lines sit at positions
2 and 3. -/
theorem modify_pkgbuild_cd_position_cex :
    modify_pkgbuild "S" ["  cd qtile\n", "  middle\n", "  git describe --tags\n"] =
      some ["  cd qtile\n", "  middle\n", remoteLine, fetchLine,
        "  git describe --tags\n"] ∧
    (["  cd qtile\n", "  middle\n", remoteLine, fetchLine,
        "  git describe --tags\n"].get? 1 ≠ some remoteLine) := by
  exact ⟨by decide, by decide⟩

/-- C4 witness: a concrete document exercising the amended insertion
positions. -/
theorem modify_pkgbuild_cd_insertion_witness :
    (∀ l ∈ ["pkgver_begin\n"], nonmatchingLine l = true) ∧
    (∀ l ∈ ["pkgver_end\n"], nonmatchingLine l = true) ∧
    nonmatchingLine "  middle\n" = true ∧
    nonmatchingLine "  git describe --tags\n" = true ∧
    describeMatch "  git describe --tags\n" = true ∧
    cdMatch "  cd qtile\n" = true ∧
    licenseMatch "  cd qtile\n" = false ∧
    sourceMatch "  cd qtile\n" = false ∧
    modify_pkgbuild "S"
        (["pkgver_begin\n"] ++ "  cd qtile\n" :: "  middle\n" ::
          "  git describe --tags\n" :: ["pkgver_end\n"]) =
      some (["pkgver_begin\n"] ++ "  cd qtile\n" :: "  middle\n" :: remoteLine ::
        fetchLine :: "  git describe --tags\n" :: ["pkgver_end\n"]) :=
  ⟨by decide, by decide, by decide, by decide, by decide, by decide, by decide,
    by decide,
    modify_pkgbuild_cd_insertion "S" ["pkgver_begin\n"] ["pkgver_end\n"] "  cd qtile\n"
      "  middle\n" "  git describe --tags\n" (by decide) (by decide) (by decide)
      (by decide) (by decide) (by decide) (by decide) (by decide)⟩

/-- C5: patching a document whose single line matches the license pattern
(and nothing else) inserts one `groups=('modified')` marker; patching the
already-patched document again inserts a second, duplicate marker — the
insertion is not deduplicated, so only a run against the original
unmutated document yields a single marker. -/
theorem license_marker_duplication (src l : String)
    (hl : licenseMatch l = true) (hs : sourceMatch l = false)
    (hc : cdMatch l = false) :
    modify_pkgbuild src [l] = some [l, markerLine] ∧
      modify_pkgbuild src [l, markerLine] = some [l, markerLine, markerLine] ∧
      List.count markerLine [l, markerLine] = 1 ∧
      List.count markerLine [l, markerLine, markerLine] = 2 := by
  have hne : l ≠ markerLine := by
    intro e
    rw [e] at hl
    exact absurd hl (by decide)
  have hml : licenseMatch markerLine = false := by decide
  have hms : sourceMatch markerLine = false := by decide
  have hmc : cdMatch markerLine = false := by decide
  refine ⟨?_, ?_, ?_, ?_⟩
  · simp [modify_pkgbuild, patchLoop, patchStep, licenseStage, sourceStage,
      cdStage, hl, hs, hc, vecInsert, insertAt]
  · simp [modify_pkgbuild, patchLoop, patchStep, licenseStage, sourceStage,
      cdStage, hl, hs, hc, hml, hms, hmc, vecInsert, insertAt]
  · simp [List.count_cons, hne]
  · simp [List.count_cons, hne]

/-- C5 witness: duplication on a concrete license line. -/
theorem license_marker_duplication_witness :
    licenseMatch "license=(GPL)\n" = true ∧
    sourceMatch "license=(GPL)\n" = false ∧
    cdMatch "license=(GPL)\n" = false ∧
    (modify_pkgbuild "S" ["license=(GPL)\n"] =
        some ["license=(GPL)\n", markerLine] ∧
      modify_pkgbuild "S" ["license=(GPL)\n", markerLine] =
        some ["license=(GPL)\n", markerLine, markerLine] ∧
      List.count markerLine ["license=(GPL)\n", markerLine] = 1 ∧
      List.count markerLine ["license=(GPL)\n", markerLine, markerLine] = 2) :=
  ⟨by decide, by decide, by decide,
    license_marker_duplication "S" "license=(GPL)\n" (by decide) (by decide)
      (by decide)⟩

/-! ## Claim C9: bounds of the unguarded Vec accesses -/

/-- The license stage succeeds whenever the scanned index is below the
original length and the buffer is at least that long; the buffer never
shrinks below `L`. -/
theorem licenseStage_total (L n : Nat) (line : String) (buf : List String)
    (hb : L ≤ buf.length) (hn : n < L) :
    ∃ b, licenseStage n line buf = some b ∧ L ≤ b.length := by
  unfold licenseStage
  cases hlic : licenseMatch line
  · exact ⟨buf, by simp, hb⟩
  · have hle : n + 1 ≤ buf.length := by omega
    refine ⟨insertAt markerLine (n + 1) buf, ?_, ?_⟩
    · simp [vecInsert, hle]
    · rw [length_insertAt _ _ _ hle]; omega

/-- The source stage succeeds whenever a source match implies
`n + 1 < L`; length is preserved. -/
theorem sourceStage_total (src : String) (L n : Nat) (line : String)
    (buf : List String) (hb : L ≤ buf.length)
    (hS : sourceMatch line = true → n + 1 < L) :
    ∃ b, sourceStage src n line buf = some b ∧ L ≤ b.length := by
  unfold sourceStage
  cases hsrc : sourceMatch line
  · exact ⟨buf, by simp, hb⟩
  · have hlt : n + 1 < buf.length := lt_of_lt_of_le (hS hsrc) hb
    refine ⟨buf.set (n + 1) (newSourceLine src), ?_, ?_⟩
    · simp [vecSet, hlt]
    · simpa using hb

/-- The cd stage succeeds whenever a directory-change match implies
`n + 2 < L`; the buffer never shrinks below `L`. -/
theorem cdStage_total (L n : Nat) (line : String) (buf : List String)
    (hb : L ≤ buf.length) (hC : cdMatch line = true → n + 2 < L) :
    ∃ b, cdStage n line buf = some b ∧ L ≤ b.length := by
  unfold cdStage
  cases hcd : cdMatch line
  · exact ⟨buf, by simp, hb⟩
  · have hlt : n + 2 < buf.length := lt_of_lt_of_le (hC hcd) hb
    obtain ⟨l2, hl2⟩ : ∃ l2, vecGet (n + 2) buf = some l2 := by
      unfold vecGet
      cases hg : buf.get? (n + 2) with
      | none => exact absurd (List.get?_eq_none.mp hg) (by omega)
      | some x => exact ⟨x, rfl⟩
    rw [if_pos rfl, hl2]
    cases hdd : describeMatch l2
    · exact ⟨buf, by simp [hdd], hb⟩
    · have hle2 : n + 2 ≤ buf.length := by omega
      have hlen2 := length_insertAt remoteLine (n + 2) buf hle2
      have hle3 : n + 3 ≤ (insertAt remoteLine (n + 2) buf).length := by omega
      have hins : vecInsert (n + 2) remoteLine buf =
          some (insertAt remoteLine (n + 2) buf) := by simp [vecInsert, hle2]
      rw [hins]
      refine ⟨insertAt fetchLine (n + 3) (insertAt remoteLine (n + 2) buf),
        ?_, ?_⟩
      · simp [hdd, hins, vecInsert, hle3]
      · rw [length_insertAt _ _ _ hle3]; omega

/-- A whole loop iteration succeeds under the per-line bounds. -/
theorem patchStep_total (src : String) (L n : Nat) (line : String)
    (buf : List String) (hb : L ≤ buf.length) (hn : n < L)
    (hS : sourceMatch line = true → n + 1 < L)
    (hC : cdMatch line = true → n + 2 < L) :
    ∃ b, patchStep src n line buf = some b ∧ L ≤ b.length := by
  obtain ⟨b1, h1, hb1⟩ := licenseStage_total L n line buf hb hn
  obtain ⟨b2, h2, hb2⟩ := sourceStage_total src L n line b1 hb1 hS
  obtain ⟨b3, h3, hb3⟩ := cdStage_total L n line b2 hb2 hC
  refine ⟨b3, ?_, hb3⟩
  show (licenseStage n line buf >>= fun b =>
    sourceStage src n line b >>= fun b => cdStage n line b) = some b3
  rw [h1]
  show (sourceStage src n line b1 >>= fun b => cdStage n line b) = some b3
  rw [h2]
  show cdStage n line b2 = some b3
  exact h3

/-- The loop over the remaining original lines succeeds when every
source-declaration match leaves one line after it and every
directory-change match leaves two, measured against the original length
`L` (the live buffer is never shorter than `L`). -/
theorem patchLoop_total (src : String) (L : Nat) (rest : List String) :
    ∀ (n : Nat) (buf : List String),
      (∀ k line, rest.get? k = some line → sourceMatch line = true →
        n + k + 1 < L) →
      (∀ k line, rest.get? k = some line → cdMatch line = true →
        n + k + 2 < L) →
      n + rest.length ≤ L → L ≤ buf.length →
      ∃ out, patchLoop src n rest buf = some out := by
  induction rest with
  | nil => intro n buf _ _ _ _; exact ⟨buf, rfl⟩
  | cons line t ih =>
    intro n buf hS hC hlen hb
    have hn : n < L := by simp only [List.length_cons] at hlen; omega
    obtain ⟨b1, h1, hb1⟩ := patchStep_total src L n line buf hb hn
      (fun h => by have := hS 0 line rfl h; omega)
      (fun h => by have := hC 0 line rfl h; omega)
    obtain ⟨out, hout⟩ := ih (n + 1) b1
      (fun k l hk hm => by have := hS (k + 1) l (by simpa using hk) hm; omega)
      (fun k l hk hm => by have := hC (k + 1) l (by simpa using hk) hm; omega)
      (by simp only [List.length_cons] at hlen; omega) hb1
    refine ⟨out, ?_⟩
    rw [patchLoop, h1]
    show patchLoop src (n + 1) t b1 = some out
    exact hout

/-- A successful `get?` yields membership in the enumeration. -/
theorem mem_enumFrom_of_get? : ∀ (l : List α) (n k : Nat) (a : α),
    l.get? k = some a → (n + k, a) ∈ l.enumFrom n
  | [], _, k, a, h => by simp at h
  | x :: t, n, 0, a, h => by
    simp only [List.get?_cons_zero, Option.some.injEq] at h
    subst h
    exact List.mem_cons_self _ _
  | x :: t, n, k + 1, a, h => by
    have hm := mem_enumFrom_of_get? t (n + 1) k a (by simpa using h)
    have heq : n + (k + 1) = (n + 1) + k := by omega
    rw [heq]
    exact List.mem_cons_of_mem _ hm

/-- The precondition under which the unguarded indexing of
`modify_pkgbuild` stays in bounds: every source-declaration match has at
least one line after it and every directory-change match at least two
(original indices; the live buffer is never shorter than the original). -/
def inBoundsDoc (orig : List String) : Bool :=
  orig.enum.all fun p =>
    (!sourceMatch p.2 || decide (p.1 + 1 < orig.length)) &&
      (!cdMatch p.2 || decide (p.1 + 2 < orig.length))

/-- C9: the patcher indexes the buffer at match-index+1 and match-index+2
without bounds checks; it is total under the precondition that every
source-declaration match has at least one following line and every
directory-change match two; a violating document — a source declaration
as the final line — panics (no recipe error is returned). -/
theorem modify_pkgbuild_totality (src : String) (orig : List String)
    (h : inBoundsDoc orig = true) :
    (modify_pkgbuild src orig).isSome = true ∧
      modify_pkgbuild "S" ["source=(x)\n"] = none := by
  refine ⟨?_, by decide⟩
  have hall := List.all_eq_true.mp h
  have hS : ∀ k line, orig.get? k = some line → sourceMatch line = true →
      0 + k + 1 < orig.length := by
    intro k line hk hm
    have hmem := mem_enumFrom_of_get? orig 0 k line hk
    have hp := hall _ (by simpa [List.enum] using hmem)
    simp only [Bool.and_eq_true, Bool.or_eq_true, Bool.not_eq_true',
      decide_eq_true_eq] at hp
    rcases hp.1 with h1 | h1
    · rw [hm] at h1; cases h1
    · omega
  have hC : ∀ k line, orig.get? k = some line → cdMatch line = true →
      0 + k + 2 < orig.length := by
    intro k line hk hm
    have hmem := mem_enumFrom_of_get? orig 0 k line hk
    have hp := hall _ (by simpa [List.enum] using hmem)
    simp only [Bool.and_eq_true, Bool.or_eq_true, Bool.not_eq_true',
      decide_eq_true_eq] at hp
    rcases hp.2 with h1 | h1
    · rw [hm] at h1; cases h1
    · omega
  obtain ⟨out, hout⟩ := patchLoop_total src orig.length orig 0 orig hS hC
    (by simp) (le_refl _)
  simp [modify_pkgbuild, hout]

/-- C9 witness: a concrete in-bounds document. -/
theorem modify_pkgbuild_totality_witness :
    inBoundsDoc ["license=(MIT)\n", "source=(a)\n", "b\n"] = true ∧
      (modify_pkgbuild "S" ["license=(MIT)\n", "source=(a)\n", "b\n"]).isSome =
        true ∧
      modify_pkgbuild "S" ["source=(x)\n"] = none := by
  refine ⟨by decide, ?_, ?_⟩
  · exact (modify_pkgbuild_totality "S" ["license=(MIT)\n", "source=(a)\n", "b\n"]
      (by decide)).1
  · exact (modify_pkgbuild_totality "S" ["license=(MIT)\n", "source=(a)\n", "b\n"]
      (by decide)).2

/-! ## Cached-repository removal (`remove_repo`) and the escalation prompt -/

/-- How one call of `UpdateQtile::remove_repo` ends, seen from the caller:
`okContinue` is `Ok(())` (the run proceeds to the clone step),
`fatalExit` is `error_and_exit` (the process exits nonzero at once),
`errPropagated` is an error surfaced through `?` (main catches it and
exits nonzero). -/
inductive RepoRemovalOutcome
  | okContinue
  | fatalExit
  | errPropagated
deriving DecidableEq

/-- The source's acceptance test for the interactive prompt:
`["Y", "y", ""].contains(&ans)`. -/
def acceptsEscalation (ans : String) : Bool :=
  ans = "Y" || ans = "y" || ans = ""

/-- `UpdateQtile::remove_repo`, abstracted over the environment:
`repoExists` is `self.repo_path.exists()`, `removeDirOk` the success of
`std::fs::remove_dir_all`, `ans` the line read from the prompt, and
`sudoJoin` the result of running `sudo rm -rf` through the shell —
`none` when `join()` itself returns `Err` (propagated by `?`),
`some b` for an exit status with success flag `b`. -/
def remove_repo (repoExists removeDirOk : Bool) (ans : String)
    (sudoJoin : Option Bool) : RepoRemovalOutcome :=
  if repoExists then
    if removeDirOk then .okContinue
    else
      if acceptsEscalation ans then
        match sudoJoin with
        | none => .errPropagated
        | some true => .okContinue
        | some false => .fatalExit
      else .okContinue
  else .okContinue

/-- C1 counterexample: deletion fails and the user declines ("n"), yet
`remove_repo` returns `Ok(())` — no permission-denied error is propagated
and the process does not exit nonzero at this step, contradicting the
claim. -/
theorem remove_repo_decline_cex :
    remove_repo true false "n" (some true) = RepoRemovalOutcome.okContinue ∧
      RepoRemovalOutcome.okContinue ≠ RepoRemovalOutcome.fatalExit ∧
      RepoRemovalOutcome.okContinue ≠ RepoRemovalOutcome.errPropagated := by
  exact ⟨by decide, by decide, by decide⟩

/-- C1 (amended): when recursive deletion of the cached repository fails
and the user declines the prompt (any answer other than "Y", "y", ""),
`remove_repo` returns `Ok(())` and the run simply continues — no error is
propagated; the process exits nonzero only when the user accepts and the
escalated delete reports failure (`error_and_exit`) or the escalation
command itself cannot be run (error propagated through `?`). -/
theorem remove_repo_decline_behavior (ans : String) (sudoJoin : Option Bool) :
    (acceptsEscalation ans = false →
      remove_repo true false ans sudoJoin = RepoRemovalOutcome.okContinue) ∧
    (acceptsEscalation ans = true →
      remove_repo true false ans (some false) = RepoRemovalOutcome.fatalExit) ∧
    (acceptsEscalation ans = true →
      remove_repo true false ans none = RepoRemovalOutcome.errPropagated) := by
  refine ⟨?_, ?_, ?_⟩ <;> intro h <;> simp [remove_repo, h]

/-- C1 witness: declining with "n" continues; accepting with "Y" while the
privileged delete fails exits fatally. -/
theorem remove_repo_decline_behavior_witness :
    (acceptsEscalation "n" = false ∧
      remove_repo true false "n" (some true) = RepoRemovalOutcome.okContinue) ∧
    (acceptsEscalation "Y" = true ∧
      remove_repo true false "Y" (some false) = RepoRemovalOutcome.fatalExit) ∧
    (acceptsEscalation "Y" = true ∧
      remove_repo true false "Y" none = RepoRemovalOutcome.errPropagated) :=
  ⟨⟨by decide, (remove_repo_decline_behavior "n" (some true)).1 (by decide)⟩,
    ⟨by decide, (remove_repo_decline_behavior "Y" (some true)).2.1 (by decide)⟩,
    ⟨by decide, (remove_repo_decline_behavior "Y" (some true)).2.2 (by decide)⟩⟩

/-! ## Artifact removal (`remove_file_or_dir_if_exists`) -/

/-- File type as reported by `std::fs::metadata(..).file_type()`; `other`
covers entries that are neither regular files nor directories. -/
inductive FileType
  | file
  | dir
  | other
deriving DecidableEq

/-- Which deletion call the helper issues. -/
inductive RemoveKind
  | removeDirAll
  | removeFile
deriving DecidableEq

/-- `UpdateQtile::remove_file_or_dir_if_exists` for one path, returning
the deletion calls it performs: absent paths (`st path = none`, i.e.
`fs::exists` is not `Ok(true)`) are skipped without error; for existing
paths the file type selects `remove_dir_all` (directories) or
`remove_file` (regular files); both `if`s are independent, exactly as in
the source. -/
def remove_file_or_dir_if_exists (st : String → Option FileType)
    (path : String) : List (String × RemoveKind) :=
  match st path with
  | some ft =>
      (if ft = FileType.dir then [(path, RemoveKind.removeDirAll)] else []) ++
        (if ft = FileType.file then [(path, RemoveKind.removeFile)] else [])
  | none => []

/-- The fixed artifact list iterated by the removal branch of
`UpdateQtile::install`. -/
def to_be_deleted : List String :=
  ["/usr/bin/qtile",
    "/usr/lib/python3.12/site-packages/libqtile",
    "/usr/share/doc/qtile-git",
    "/usr/share/licenses/qtile-git/LICENSE",
    "/usr/share/wayland-sessions/qtile-wayland.desktop",
    "/usr/share/xsessions/qtile.desktop"]

/-- The deletion calls the artifact-removal loop performs over a path
list. -/
def removal_ops (st : String → Option FileType) (paths : List String) :
    List (String × RemoveKind) :=
  paths.flatMap (remove_file_or_dir_if_exists st)

/-- Declarative description: exactly the existing entries, directories
via recursive deletion and regular files via single-file deletion. -/
def expectedRemovals (st : String → Option FileType) (paths : List String) :
    List (String × RemoveKind) :=
  paths.filterMap fun p =>
    match st p with
    | some FileType.dir => some (p, RemoveKind.removeDirAll)
    | some FileType.file => some (p, RemoveKind.removeFile)
    | _ => none

/-- The per-path calls agree with the declarative description. -/
theorem remove_file_or_dir_matches (st : String → Option FileType)
    (paths : List String) : removal_ops st paths = expectedRemovals st paths := by
  induction paths with
  | nil => rfl
  | cons p t ih =>
    simp only [removal_ops, expectedRemovals, List.flatMap_cons,
      List.filterMap_cons] at ih ⊢
    rw [ih]
    cases hst : st p with
    | none => simp [remove_file_or_dir_if_exists, hst]
    | some ft => cases ft <;> simp [remove_file_or_dir_if_exists, hst]

/-- C7: over any artifact path list containing at least one existing
directory, one existing regular file, and one absent path, the removal
step removes exactly the existing entries — `remove_dir_all` for
directories, `remove_file` for regular files — and absent paths produce
no deletion call and no error. -/
theorem artifact_removal_exact (st : String → Option FileType)
    (paths : List String)
    (hdir : ∃ p ∈ paths, st p = some FileType.dir)
    (hfile : ∃ p ∈ paths, st p = some FileType.file)
    (habsent : ∃ p ∈ paths, st p = none) :
    removal_ops st paths = expectedRemovals st paths ∧
      (∀ p, st p = none → remove_file_or_dir_if_exists st p = []) := by
  refine ⟨remove_file_or_dir_matches st paths, ?_⟩
  intro p hp
  simp [remove_file_or_dir_if_exists, hp]

/-- An example filesystem state: the installed binary is a regular file,
the python package tree a directory, everything else absent. -/
def exampleFsState (p : String) : Option FileType :=
  if p = "/usr/bin/qtile" then some FileType.file
  else if p = "/usr/lib/python3.12/site-packages/libqtile" then
    some FileType.dir
  else none

/-- C7 witness: the fixed install artifact list against a state with a
regular file, a directory, and four absent paths. -/
theorem artifact_removal_exact_witness :
    (∃ p ∈ to_be_deleted, exampleFsState p = some FileType.dir) ∧
    (∃ p ∈ to_be_deleted, exampleFsState p = some FileType.file) ∧
    (∃ p ∈ to_be_deleted, exampleFsState p = none) ∧
    (removal_ops exampleFsState to_be_deleted =
        expectedRemovals exampleFsState to_be_deleted ∧
      (∀ p, exampleFsState p = none →
        remove_file_or_dir_if_exists exampleFsState p = [])) :=
  ⟨by decide, by decide, by decide,
    artifact_removal_exact exampleFsState to_be_deleted (by decide) (by decide)
      (by decide)⟩

/-! ## Build/install orchestration (`install`) -/

/-- The shape of a `serde_json::Value`, as matched by the restart arm of
`install` (payloads matter only for distinguishing constructors). -/
inductive JsonValue
  | null
  | bool (b : Bool)
  | num (n : Int)
  | str (s : String)
  | arr (elems : List JsonValue)
  | obj (fields : List (String × JsonValue))

/-- The phases of the orchestration, in source order. -/
inductive Phase
  | building
  | checkInstalled
  | removing
  | installing
  | restarting
deriving DecidableEq

/-- How a completed (non-panicking) run of `install` ends.
`success`: the restart call replied null and `install` returns `Ok` (the
process exits 0).  `buildFailedLogged`: `makepkg` failed, the error is
logged and `install` still returns `Ok` without running later phases.
`restartFailedExit` / `notRunningExit`: `error_and_exit` from the restart
arm (nonzero exit).  `manualReminder`: `restart` was false, an
informational reminder to restart manually is logged and `install`
returns `Ok`. -/
inductive InstallOutcome
  | success
  | buildFailedLogged
  | restartFailedExit
  | notRunningExit
  | manualReminder
deriving DecidableEq

/-- Result of a run: either a Rust panic (here: the `todo!()` on a failed
log-file creation, or the `unwrap` of an empty glob) with the phases
entered so far, or a finished run with its phases, the artifact deletion
calls performed, whether a failed `pacman -U` was logged, and the
outcome. -/
inductive InstallResult
  | panicked (phases : List Phase)
  | finished (phases : List Phase) (removed : List (String × RemoveKind))
      (installFailLogged : Bool) (outcome : InstallOutcome)
deriving DecidableEq

/-- Environment of one `install` run: results of the external calls and
queries it makes, in source order: `File::create(install.log)`, the
`makepkg` exit status, the `sudo pacman -Qq qtile-git` exit status, the
filesystem state seen by the artifact-removal loop, the first `*.tar.zst`
glob match, the `pacman -U` exit status, the `restart` CLI flag, and the
reply of `InteractiveCommandClient::call`. -/
structure InstallEnv where
  createLogOk : Bool
  buildOk : Bool
  qtileInstalled : Bool
  fsState : String → Option FileType
  globFirst : Option String
  installOk : Bool
  restart : Bool
  restartResp : Except String JsonValue

/-- The restart arm of `install`: a null reply is the only success; any
other JSON value hits `error_and_exit("restart failed, please restart
manually")`; an `Err` reply hits `error_and_exit(err + "\nQtile is
probably not running")`. -/
def restart_phase (resp : Except String JsonValue) : InstallOutcome :=
  match resp with
  | .ok JsonValue.null => .success
  | .ok _ => .restartFailedExit
  | .error _ => .notRunningExit

/-- `UpdateQtile::install`, abstracted over its environment.  Create the
log (a failure is `todo!()`, a panic); build with `makepkg` (a failure is
logged and ends the run, still returning `Ok`); on success query whether
`qtile-git` is registered — if yes, nothing is removed (the uninstall
block is commented out in the source), otherwise the fixed artifact list
is deleted; then the first `*.tar.zst` glob match is unwrapped (`none`
panics) and installed with `pacman -U` (a failure is only logged); if the
`restart` flag is set, the restart call runs last, otherwise a manual
reminder is logged. -/
def install (env : InstallEnv) : InstallResult :=
  if env.createLogOk = false then .panicked []
  else if env.buildOk = false then
    .finished [Phase.building] [] false InstallOutcome.buildFailedLogged
  else
    let pre :=
      if env.qtileInstalled then [Phase.building, Phase.checkInstalled]
      else [Phase.building, Phase.checkInstalled, Phase.removing]
    let removed :=
      if env.qtileInstalled then []
      else removal_ops env.fsState to_be_deleted
    match env.globFirst with
    | none => .panicked (pre ++ [Phase.installing])
    | some _ =>
      if env.restart then
        .finished (pre ++ [Phase.installing, Phase.restarting]) removed
          (!env.installOk) (restart_phase env.restartResp)
      else
        .finished (pre ++ [Phase.installing]) removed (!env.installOk)
          InstallOutcome.manualReminder

/-- The phases a result records. -/
def InstallResult.phasesOf : InstallResult → List Phase
  | .panicked p => p
  | .finished p _ _ _ => p

/-- The outcome of a finished run; `none` for a panic. -/
def InstallResult.outcomeOf : InstallResult → Option InstallOutcome
  | .panicked _ => none
  | .finished _ _ _ o => some o

/-- Whether the run panicked. -/
def InstallResult.isPanicked : InstallResult → Bool
  | .panicked _ => true
  | .finished _ _ _ _ => false

/-- C6: in the restart phase, a non-null reply ends the run with the
fatal restart-failure error; a null reply completes the run as success;
and with `restart` false the restarting phase never runs — no restart
call is issued — and the run ends with the informational manual-restart
reminder. -/
theorem install_restart_spec (env : InstallEnv) (r : JsonValue)
    (hlog : env.createLogOk = true) (hb : env.buildOk = true)
    (hg : env.globFirst.isSome = true) :
    (env.restart = true → env.restartResp = Except.ok r →
      r ≠ JsonValue.null →
      (install env).outcomeOf = some InstallOutcome.restartFailedExit) ∧
    (env.restart = true → env.restartResp = Except.ok JsonValue.null →
      (install env).outcomeOf = some InstallOutcome.success) ∧
    (env.restart = false →
      Phase.restarting ∉ (install env).phasesOf ∧
      (install env).outcomeOf = some InstallOutcome.manualReminder) := by
  refine ⟨?_, ?_, ?_⟩
  · intro hr hresp hnull
    cases hgf : env.globFirst with
    | none => rw [hgf] at hg; simp at hg
    | some pkg =>
      have hrp : restart_phase env.restartResp =
          InstallOutcome.restartFailedExit := by
        rw [hresp]
        cases r
        · exact absurd rfl hnull
        all_goals rfl
      simp [install, hlog, hb, hgf, hr, hrp, InstallResult.outcomeOf]
  · intro hr hresp
    cases hgf : env.globFirst with
    | none => rw [hgf] at hg; simp at hg
    | some pkg =>
      have hrp : restart_phase env.restartResp = InstallOutcome.success := by
        rw [hresp]
        rfl
      simp [install, hlog, hb, hgf, hr, hrp, InstallResult.outcomeOf]
  · intro hr
    cases hgf : env.globFirst with
    | none => rw [hgf] at hg; simp at hg
    | some pkg =>
      constructor
      · cases hqi : env.qtileInstalled <;>
          simp [install, hlog, hb, hgf, hr, hqi, InstallResult.phasesOf]
      · simp [install, hlog, hb, hgf, hr, InstallResult.outcomeOf]

/-- Concrete environment: restart requested, restart call replies with a
non-null value. -/
def envRestartFail : InstallEnv :=
  { createLogOk := true, buildOk := true, qtileInstalled := true,
    fsState := fun _ => none, globFirst := some "qtile-git.pkg.tar.zst",
    installOk := true, restart := true,
    restartResp := Except.ok (JsonValue.bool false) }

/-- Concrete environment: restart requested, restart call replies null. -/
def envRestartNull : InstallEnv :=
  { envRestartFail with restartResp := Except.ok JsonValue.null }

/-- Concrete environment: restart not requested. -/
def envNoRestart : InstallEnv :=
  { envRestartFail with restart := false }

/-- C6 witness: the three branches at concrete environments. -/
theorem install_restart_spec_witness :
    (install envRestartFail).outcomeOf =
        some InstallOutcome.restartFailedExit ∧
      (install envRestartNull).outcomeOf = some InstallOutcome.success ∧
      (Phase.restarting ∉ (install envNoRestart).phasesOf ∧
        (install envNoRestart).outcomeOf = some InstallOutcome.manualReminder) :=
  ⟨(install_restart_spec envRestartFail (JsonValue.bool false) rfl rfl rfl).1
      rfl rfl (fun h => JsonValue.noConfusion h),
    (install_restart_spec envRestartNull JsonValue.null rfl rfl rfl).2.1
      rfl rfl,
    (install_restart_spec envNoRestart JsonValue.null rfl rfl rfl).2.2 rfl⟩

/-- C8: when the build phase's external process exits unsuccessfully, the
run records only the building phase and halts — the installed-package
check, artifact removal, installation and restart phases never run, the
build is not retried, and the run ends in the logged build-failure
state. -/
theorem build_failure_halts (env : InstallEnv)
    (hlog : env.createLogOk = true) (hb : env.buildOk = false) :
    (install env).phasesOf = [Phase.building] ∧
      Phase.checkInstalled ∉ (install env).phasesOf ∧
      Phase.removing ∉ (install env).phasesOf ∧
      Phase.installing ∉ (install env).phasesOf ∧
      Phase.restarting ∉ (install env).phasesOf ∧
      ((install env).phasesOf).count Phase.building = 1 ∧
      (install env).outcomeOf = some InstallOutcome.buildFailedLogged := by
  have hres : install env =
      InstallResult.finished [Phase.building] [] false
        InstallOutcome.buildFailedLogged := by
    simp [install, hlog, hb]
  rw [hres]
  exact ⟨rfl, by decide, by decide, by decide, by decide, by decide, rfl⟩

/-- Concrete environment: the build fails. -/
def envBuildFail : InstallEnv :=
  { envRestartFail with buildOk := false }

/-- C8 witness: the failed build records only the building phase. -/
theorem build_failure_halts_witness :
    (install envBuildFail).phasesOf = [Phase.building] ∧
      (install envBuildFail).outcomeOf =
        some InstallOutcome.buildFailedLogged :=
  ⟨(build_failure_halts envBuildFail rfl rfl).1,
    (build_failure_halts envBuildFail rfl rfl).2.2.2.2.2.2⟩

/-- C10: when the build succeeded but no `*.tar.zst` file matches the
glob in the working directory, the install phase panics — unwrap of
`None` — instead of producing a handled install-failure outcome. -/
theorem install_missing_archive_behavior (env : InstallEnv)
    (hlog : env.createLogOk = true) (hb : env.buildOk = true)
    (hg : env.globFirst = none) :
    (install env).isPanicked = true ∧ (install env).outcomeOf = none := by
  constructor <;>
    simp [install, hlog, hb, hg, InstallResult.isPanicked,
      InstallResult.outcomeOf]

/-- Concrete environment: build reported success, no package archive. -/
def envNoArchive : InstallEnv :=
  { envRestartFail with globFirst := none }

/-- C10 witness: the missing archive panics at a concrete environment. -/
theorem install_missing_archive_behavior_witness :
    (install envNoArchive).isPanicked = true ∧
      (install envNoArchive).outcomeOf = none :=
  install_missing_archive_behavior envNoArchive rfl rfl rfl
